import Mathlib

/-
Verification of the `zpd` download-size monitor (`src/main.rs`).

The program is a single polling loop with two pure formatting helpers and a
summary printer.  We embed it shallowly:

* `format_bytes`, `format_duration`, `print_summary` are translated directly
  from the Rust functions of the same names.  Machine integers (`u64`) become
  `Nat`; the only subtraction in the source is `saturating_sub`, which is
  exactly `Nat` subtraction.
* Rust renders the scaled byte value via `f64` division and `format!` with
  precision 2.  For `bytes < 2^53` the `u64 → f64` conversion and the division
  by a power of two are exact, and `format!` with precision 2 rounds the exact
  value half-to-even; we model this with exact natural arithmetic
  (`roundHalfEven (bytes * 100) unit`), which agrees with the Rust output on
  that range.
* The monitor loop body (one iteration of the `while` loop) becomes `tick`, a
  function from the loop state and the result of `get_file_size` to a
  structured outcome plus the list of status lines printed during the
  iteration.  `runLoop` iterates `tick` over a finite list of read results;
  exhausting the list models the shared stop flag having been cleared by the
  Ctrl+C handler (the loop condition `running.load(..)` failing).
-/

namespace Zpd

/-- Round `num / den` to the nearest integer, ties to even (the rounding used
by Rust's float formatting with an explicit precision). -/
def roundHalfEven (num den : Nat) : Nat :=
  let q := num / den
  let r := num % den
  if 2 * r < den then q
  else if den < 2 * r then q + 1
  else if q % 2 = 0 then q else q + 1

/-- Render `bytes / unit` with exactly two decimal digits, modelling Rust's
`format!` with precision 2 applied to `bytes as f64 / unit as f64` (exact for
`bytes < 2^53`, see the header comment). -/
def twoDecimals (bytes unit : Nat) : String :=
  let cents := roundHalfEven (bytes * 100) unit
  toString (cents / 100) ++ "." ++ (if cents % 100 < 10 then "0" else "") ++ toString (cents % 100)

/-- `const KB: u64 = 1024;` in `format_bytes`. -/
def KB : Nat := 1024

/-- `const MB: u64 = KB * 1024;` in `format_bytes`. -/
def MB : Nat := KB * 1024

/-- `const GB: u64 = MB * 1024;` in `format_bytes`. -/
def GB : Nat := MB * 1024

/-- `fn format_bytes(bytes: u64) -> String` (src/main.rs:10-24). -/
def format_bytes (bytes : Nat) : String :=
  if bytes ≥ GB then twoDecimals bytes GB ++ " GB"
  else if bytes ≥ MB then twoDecimals bytes MB ++ " MB"
  else if bytes ≥ KB then twoDecimals bytes KB ++ " KB"
  else toString bytes ++ " B"

/-- The four units `format_bytes` can choose between. -/
inductive ByteUnit where
  | B | KB | MB | GB
deriving Repr, DecidableEq

/-- Size of one `ByteUnit` in bytes (binary, 1024-based, as in the source). -/
def unitSize : ByteUnit → Nat
  | .B => 1
  | .KB => 1024
  | .MB => 1024 * 1024
  | .GB => 1024 * 1024 * 1024

/-- The suffix `format_bytes` appends for each unit. -/
def unitSuffix : ByteUnit → String
  | .B => " B"
  | .KB => " KB"
  | .MB => " MB"
  | .GB => " GB"

/-- The unit selected by the `if`-chain of `format_bytes` (src/main.rs:15-23),
stated separately so theorems can talk about the selection. -/
def selectUnit (bytes : Nat) : ByteUnit :=
  if bytes ≥ GB then .GB
  else if bytes ≥ MB then .MB
  else if bytes ≥ KB then .KB
  else .B

/-- `fn format_duration(secs: u64) -> String` (src/main.rs:26-39). -/
def format_duration (secs : Nat) : String :=
  if secs ≥ 3600 then
    toString (secs / 3600) ++ "h " ++ toString ((secs % 3600) / 60) ++ "m " ++ toString (secs % 60) ++ "s"
  else if secs ≥ 60 then
    toString (secs / 60) ++ "m " ++ toString (secs % 60) ++ "s"
  else toString secs ++ "s"

/-- The `(hours, mins, secs)` components computed by the branches of
`format_duration`: branches that do not compute a component contribute `0`. -/
def durationComponents (secs : Nat) : Nat × Nat × Nat :=
  if secs ≥ 3600 then (secs / 3600, (secs % 3600) / 60, secs % 60)
  else if secs ≥ 60 then (0, secs / 60, secs % 60)
  else (0, 0, secs)

/-- `final_size.saturating_sub(initial_size.unwrap_or(0))` from
`print_summary` (src/main.rs:46), factored out so theorems can name it. -/
def total_downloaded (initial_size : Option Nat) (final_size : Nat) : Nat :=
  final_size - initial_size.getD 0

/-- `fn print_summary` (src/main.rs:45-57), as the list of lines it prints
(one list element per `println!` call; the leading `\n\n` of the first call
is kept inside the string). -/
def print_summary (initial_size : Option Nat) (final_size elapsed_secs : Nat) : List String :=
  let total := total_downloaded initial_size final_size
  ["\n\n--- Download Summary ---",
   "Total downloaded: " ++ format_bytes total,
   "Final size: " ++ format_bytes final_size,
   "Duration: " ++ format_duration elapsed_secs]
  ++ (if elapsed_secs > 0 then ["Average speed: " ++ format_bytes (total / elapsed_secs) ++ "/s"] else [])

/-- `current_size.saturating_sub(prev)` from the loop body (src/main.rs:97). -/
def sizeDelta (current_size prev : Nat) : Nat := current_size - prev

/-- The mutable locals of `main`'s monitor loop (src/main.rs:81-84), in
declaration order. -/
structure MonitorState where
  previous_size : Option Nat
  initial_size : Option Nat
  last_known_size : Nat
  no_change_count : Nat
deriving Repr, DecidableEq

/-- The state before the first loop iteration (src/main.rs:81-84). -/
def initialState : MonitorState := ⟨none, none, 0, 0⟩

/-- Status lines printed by a loop iteration, kept structured; `renderStatus`
maps them to the exact strings of the source. -/
inductive Status where
  | initialLine (size : Nat)
  | idleLine (size count : Nat)
  | speedLine (size delta : Nat)
  | waitingLine
  | inaccessibleLine (err : String)
deriving Repr, DecidableEq

/-- The exact text printed for each `Status` (src/main.rs:101-105, 108-112,
121, 127, 131); each `print!`/`println!` call is one string, with embedded
`\r`/`\n` kept and the trailing newline of `println!` omitted. -/
def renderStatus : Status → String
  | .initialLine size => "Initial size: " ++ format_bytes size
  | .idleLine size count =>
      "\rSize: " ++ format_bytes size ++ " | Speed: 0 B/s (idle " ++ toString count ++ "/5)    "
  | .speedLine size delta =>
      "\rSize: " ++ format_bytes size ++ " | Speed: " ++ format_bytes delta ++ "/s         "
  | .waitingLine => "\rWaiting for file to appear...    "
  | .inaccessibleLine e => "\nFile no longer accessible: " ++ e

/-- How one loop iteration ends: continue with an updated state, or return
from `main` via one of the two in-loop `return`s, carrying the two arguments
the iteration passes to `print_summary` (initial size, final size). -/
inductive TickOutcome where
  | cont (st : MonitorState)
  | stopIdle (initialSize : Option Nat) (finalSize : Nat)
  | stopInaccessible (initialSize : Option Nat) (finalSize : Nat)
deriving Repr, DecidableEq

/-- One iteration of the monitor loop body (src/main.rs:88-135).  `read` is
the result of `get_file_size`; `Except.error e` carries the error's display
text.  Returns the outcome and the status lines printed this iteration
(excluding the summary, which `mainModel` appends). -/
def tick (st : MonitorState) (read : Except String Nat) : TickOutcome × List Status :=
  match read with
  | .ok current_size =>
      let st := { st with last_known_size := current_size }
      let st := if st.initial_size.isNone then { st with initial_size := some current_size } else st
      match st.previous_size with
      | some prev =>
          let delta := sizeDelta current_size prev
          let no_change_count := if delta = 0 then st.no_change_count + 1 else 0
          let line :=
            if delta = 0 then Status.idleLine current_size no_change_count
            else Status.speedLine current_size delta
          if no_change_count ≥ 5 then
            (TickOutcome.stopIdle st.initial_size current_size, [line])
          else
            (TickOutcome.cont
              { st with previous_size := some current_size, no_change_count := no_change_count },
             [line])
      | none =>
          (TickOutcome.cont { st with previous_size := some current_size },
           [Status.initialLine current_size])
  | .error e =>
      if st.previous_size.isSome then
        (TickOutcome.stopInaccessible st.initial_size st.last_known_size,
         [Status.inaccessibleLine e])
      else
        (TickOutcome.cont st, [Status.waitingLine])

/-- Why the loop returned early. -/
inductive StopReason where
  | idleTimeout | inaccessible
deriving Repr, DecidableEq

/-- Result of running the loop on a finite list of read results:
`interrupted st` means the list was exhausted with the loop still going (the
stop flag was cleared, src/main.rs:87/140); `stopped r i f n` means the loop
returned on its `n`-th iteration (1-based) for reason `r`, passing `i`, `f`
to `print_summary`. -/
inductive LoopResult where
  | interrupted (st : MonitorState)
  | stopped (reason : StopReason) (initialSize : Option Nat) (finalSize : Nat) (ticksUsed : Nat)
deriving Repr, DecidableEq

/-- Iterate `tick` over the reads (src/main.rs:87-138). -/
def runLoop (st : MonitorState) : List (Except String Nat) → LoopResult
  | [] => .interrupted st
  | r :: rs =>
      match (tick st r).1 with
      | .cont st2 =>
          match runLoop st2 rs with
          | .stopped reason i f n => .stopped reason i f (n + 1)
          | .interrupted stF => .interrupted stF
      | .stopIdle i f => .stopped .idleTimeout i f 1
      | .stopInaccessible i f => .stopped .inaccessible i f 1

/-- The status lines printed while running the loop, up to and including the
stopping iteration. -/
def runOut (st : MonitorState) : List (Except String Nat) → List Status
  | [] => []
  | r :: rs =>
      match tick st r with
      | (.cont st2, lines) => lines ++ runOut st2 rs
      | (.stopIdle _ _, lines) => lines
      | (.stopInaccessible _ _, lines) => lines

/-- Number of successful reads in a list of read results. -/
def countOk (reads : List (Except String Nat)) : Nat :=
  reads.countP fun r => r.isOk

/-- The `initial_size` argument the outcome would pass to `print_summary`
(for `cont`, the field the state would pass later). -/
def outcomeInitial : TickOutcome → Option Nat
  | .cont st2 => st2.initial_size
  | .stopIdle i _ => i
  | .stopInaccessible i _ => i

/-- `eprintln!("Usage: {} <file_path>", args[0])` (src/main.rs:63).  A process
always receives a non-empty `argv`, so `args[0]` is modelled as `headD`. -/
def usageLine (args : List String) : String :=
  "Usage: " ++ args.headD "" ++ " <file_path>"

/-- The two `println!` calls before the loop (src/main.rs:78-79). -/
def headerLines (path : String) : List String :=
  ["Monitoring download speed for: " ++ path,
   "Press Ctrl+C to stop (auto-exits after 5s of no activity)\n"]

/-- Observable result of a whole run: exit code, stdout print calls, stderr
print calls. -/
structure ProgResult where
  exitCode : Nat
  stdoutLines : List String
  stderrLines : List String
deriving Repr, DecidableEq

/-- `fn main` (src/main.rs:59-142): `args` is the full `argv` (program name
included), `reads` the successive `get_file_size` results until the stop flag
is observed cleared, `elapsed` the value of `start_time.elapsed().as_secs()`
at termination. -/
def mainModel (args : List String) (reads : List (Except String Nat)) (elapsed : Nat) :
    ProgResult :=
  if args.length ≠ 2 then
    { exitCode := 1, stdoutLines := [], stderrLines := [usageLine args] }
  else
    let path := args.getD 1 ""
    let body :=
      match runLoop initialState reads with
      | .interrupted st =>
          (runOut initialState reads).map renderStatus
            ++ print_summary st.initial_size st.last_known_size elapsed
      | .stopped _ i f _ =>
          (runOut initialState reads).map renderStatus ++ print_summary i f elapsed
    { exitCode := 0, stdoutLines := headerLines path ++ body, stderrLines := [] }

/-- C6: for every non-negative second count `d`, the components rendered by
`format_duration` reconstitute exactly to `d` (`h*3600 + m*60 + s = d`); the
output is the `H h M m S s` form when `d ≥ 3600`, the `M m S s` form (with
`h = 0`) when `60 ≤ d < 3600`, and the `S s` form (`h = m = 0`) otherwise. -/
theorem format_duration_components (d : Nat) :
    (durationComponents d).1 * 3600 + (durationComponents d).2.1 * 60 + (durationComponents d).2.2 = d
    ∧ (3600 ≤ d → format_duration d =
        toString (durationComponents d).1 ++ "h " ++ toString (durationComponents d).2.1 ++ "m "
          ++ toString (durationComponents d).2.2 ++ "s")
    ∧ (60 ≤ d → d < 3600 → (durationComponents d).1 = 0 ∧ format_duration d =
        toString (durationComponents d).2.1 ++ "m " ++ toString (durationComponents d).2.2 ++ "s")
    ∧ (d < 60 → (durationComponents d).1 = 0 ∧ (durationComponents d).2.1 = 0 ∧
        format_duration d = toString (durationComponents d).2.2 ++ "s") := by
  unfold durationComponents format_duration
  split_ifs with h1 h2
  · exact ⟨by dsimp only; omega, fun _ => rfl, fun _ h => absurd h (by omega),
      fun h => absurd h (by omega)⟩
  · exact ⟨by dsimp only; omega, fun h => absurd h (by omega), fun _ _ => ⟨rfl, rfl⟩,
      fun h => absurd h (by omega)⟩
  · exact ⟨by dsimp only; omega, fun h => absurd h (by omega), fun h _ => absurd h (by omega),
      fun _ => ⟨rfl, rfl, rfl⟩⟩

/-- C6 witness: instantiation at `d = 3725`. -/
theorem format_duration_components_witness :
    3600 ≤ 3725 ∧ format_duration 3725 =
      toString (durationComponents 3725).1 ++ "h " ++ toString (durationComponents 3725).2.1
        ++ "m " ++ toString (durationComponents 3725).2.2 ++ "s" :=
  ⟨by omega, (format_duration_components 3725).2.1 (by omega)⟩

/-- C2 counterexample: at `b = 2^40` (1024 GB) the code selects GB, but the
scaled value is `1024`, outside `[1, 1024)`, and no unit at all puts the
scaled value inside `[1, 1024)`, so the claimed selection rule cannot hold
for every u64 input. -/
theorem format_bytes_unit_range_counterexample :
    selectUnit 1099511627776 = ByteUnit.GB
    ∧ 1099511627776 / unitSize ByteUnit.GB = 1024
    ∧ ¬ (1099511627776 / unitSize ByteUnit.B < 1024)
    ∧ ¬ (1099511627776 / unitSize ByteUnit.KB < 1024)
    ∧ ¬ (1099511627776 / unitSize ByteUnit.MB < 1024)
    ∧ ¬ (1099511627776 / unitSize ByteUnit.GB < 1024) := by
  refine ⟨by decide, by decide, by decide, by decide, by decide, by decide⟩

/-- C2 (amended): `format_bytes` selects the largest unit whose scaled value
is at least 1 (plain bytes when `b < 1024`); the scaled value also lies below
1024 whenever `b < 1024` GB, while for `b ≥ 1024` GB the unit is GB and the
scaled value is `≥ 1024`; rendering is two-decimal for KB/MB/GB and integer
for plain bytes. -/
theorem format_bytes_unit_selection (b : Nat) :
    (b < 1024 → selectUnit b = ByteUnit.B ∧ format_bytes b = toString b ++ " B")
    ∧ (1024 ≤ b → selectUnit b ≠ ByteUnit.B ∧ 1 ≤ b / unitSize (selectUnit b)
        ∧ format_bytes b = twoDecimals b (unitSize (selectUnit b)) ++ unitSuffix (selectUnit b))
    ∧ (∀ u : ByteUnit, unitSize u ≤ b → unitSize u ≤ unitSize (selectUnit b))
    ∧ (b < 1024 * unitSize ByteUnit.GB → b / unitSize (selectUnit b) < 1024)
    ∧ (1024 * unitSize ByteUnit.GB ≤ b →
        selectUnit b = ByteUnit.GB ∧ 1024 ≤ b / unitSize (selectUnit b)) := by
  simp only [format_bytes, selectUnit, KB, MB, GB, ge_iff_le]
  split_ifs with h1 h2 h3
  · exact ⟨fun h => absurd h (by omega),
      fun _ => ⟨by decide, by simp only [unitSize]; omega, by simp [unitSize, unitSuffix]⟩,
      fun u hu => by cases u <;> simp only [unitSize] at * <;> omega,
      fun h4 => by simp only [unitSize] at h4 ⊢; omega,
      fun h4 => ⟨rfl, by simp only [unitSize] at h4 ⊢; omega⟩⟩
  · exact ⟨fun h => absurd h (by omega),
      fun _ => ⟨by decide, by simp only [unitSize]; omega, by simp [unitSize, unitSuffix]⟩,
      fun u hu => by cases u <;> simp only [unitSize] at * <;> omega,
      fun h4 => by simp only [unitSize] at h4 ⊢; omega,
      fun h4 => by simp only [unitSize] at h4; omega⟩
  · exact ⟨fun h => absurd h (by omega),
      fun _ => ⟨by decide, by simp only [unitSize]; omega, by simp [unitSize, unitSuffix]⟩,
      fun u hu => by cases u <;> simp only [unitSize] at * <;> omega,
      fun h4 => by simp only [unitSize] at h4 ⊢; omega,
      fun h4 => by simp only [unitSize] at h4; omega⟩
  · exact ⟨fun _ => ⟨rfl, rfl⟩, fun h => absurd h (by omega),
      fun u hu => by cases u <;> simp only [unitSize] at * <;> omega,
      fun h4 => by simp only [unitSize] at h4 ⊢; omega,
      fun h4 => by simp only [unitSize] at h4; omega⟩

/-- C2 witness: instantiation at `b = 2048` (a KB-range value). -/
theorem format_bytes_unit_selection_witness :
    (1024 : Nat) ≤ 2048 ∧ (selectUnit 2048 ≠ ByteUnit.B ∧ 1 ≤ 2048 / unitSize (selectUnit 2048)
      ∧ format_bytes 2048 = twoDecimals 2048 (unitSize (selectUnit 2048)) ++ unitSuffix (selectUnit 2048)) :=
  ⟨by omega, (format_bytes_unit_selection 2048).2.1 (by omega)⟩

/-- C3: `print_summary` computes `total_downloaded = max(0, final - initial_or_0)`
(`initial_or_0 = 0` when the initial size is absent), prints total downloaded,
final size, and duration, prints the average-speed line iff `elapsed > 0` with
speed `total_downloaded / elapsed` by integer division; at `initial = 1000`,
`final = 5000`, `elapsed = 10` this gives `total_downloaded = 4000` and the
speed renders in integer form as `400 B/s`. -/
theorem print_summary_spec :
    (∀ (i : Option Nat) (fs : Nat),
      (total_downloaded i fs : Int) = max 0 ((fs : Int) - (i.getD 0 : Int)))
    ∧ (∀ (i : Option Nat) (fs e : Nat), 0 < e →
        print_summary i fs e =
          ["\n\n--- Download Summary ---",
           "Total downloaded: " ++ format_bytes (total_downloaded i fs),
           "Final size: " ++ format_bytes fs,
           "Duration: " ++ format_duration e,
           "Average speed: " ++ format_bytes (total_downloaded i fs / e) ++ "/s"])
    ∧ (∀ (i : Option Nat) (fs : Nat),
        print_summary i fs 0 =
          ["\n\n--- Download Summary ---",
           "Total downloaded: " ++ format_bytes (total_downloaded i fs),
           "Final size: " ++ format_bytes fs,
           "Duration: " ++ format_duration 0])
    ∧ total_downloaded (some 1000) 5000 = 4000
    ∧ print_summary (some 1000) 5000 10 =
        ["\n\n--- Download Summary ---", "Total downloaded: 3.91 KB", "Final size: 4.88 KB",
         "Duration: 10s", "Average speed: 400 B/s"] := by
  refine ⟨fun i fs => ?_, fun i fs e he => ?_, fun i fs => ?_, by decide, by decide⟩
  · rcases i with _ | v <;> simp only [total_downloaded, Option.getD] <;> omega
  · simp [print_summary, he]
  · simp [print_summary]

/-- C3 witness: instantiation at `i = some 0`, `fs = 100`, `e = 10`. -/
theorem print_summary_spec_witness :
    (0 : Nat) < 10 ∧ print_summary (some 0) 100 10 =
      ["\n\n--- Download Summary ---",
       "Total downloaded: " ++ format_bytes (total_downloaded (some 0) 100),
       "Final size: " ++ format_bytes 100,
       "Duration: " ++ format_duration 10,
       "Average speed: " ++ format_bytes (total_downloaded (some 0) 100 / 10) ++ "/s"] :=
  ⟨by omega, print_summary_spec.2.1 (some 0) 100 10 (by omega)⟩

/-- C4: the delta between consecutive successful reads is the saturating
difference `max(0, current - previous)` — never negative; on observations
`[100, 80]` the loop computes delta `0` and takes the idle branch. -/
theorem delta_saturating_nonneg :
    (∀ c p : Nat, (sizeDelta c p : Int) = max 0 ((c : Int) - (p : Int)))
    ∧ sizeDelta 80 100 = 0
    ∧ tick ⟨some 100, some 100, 100, 0⟩ (Except.ok 80)
        = (TickOutcome.cont ⟨some 80, some 100, 80, 1⟩, [Status.idleLine 80 1]) := by
  refine ⟨fun c p => ?_, rfl, rfl⟩
  unfold sizeDelta; omega

/-- A tick that continues the loop keeps the counter at most 4 (helper). -/
theorem tick_cont_count_le (st st2 : MonitorState) (r : Except String Nat) (outs : List Status)
    (hst : st.no_change_count ≤ 4) (h : tick st r = (TickOutcome.cont st2, outs)) :
    st2.no_change_count ≤ 4 := by
  obtain ⟨ps, is, l, c⟩ := st
  replace hst : c ≤ 4 := hst
  rcases r with e | n
  · rcases ps with _ | p <;> simp [tick] at h
    obtain ⟨h1, h2⟩ := h; subst h1; exact hst
  · rcases ps with _ | p
    · rcases is with _ | v <;> simp [tick] at h <;>
        (obtain ⟨h1, h2⟩ := h; subst h1; exact hst)
    · by_cases hd : n - p = 0 <;> by_cases hc : 5 ≤ c + 1 <;> rcases is with _ | v <;>
        simp [tick, sizeDelta, hd, hc] at h <;>
        (obtain ⟨h1, h2⟩ := h; subst h1; dsimp only; omega)

/-- A successful tick returns via the idle-timeout path exactly when the
counter was 4 and the delta is zero (helper). -/
theorem tick_stopIdle_iff (st : MonitorState) (n : Nat) (h : st.no_change_count ≤ 4) :
    (∃ i f, (tick st (Except.ok n)).1 = TickOutcome.stopIdle i f) ↔
      (st.no_change_count = 4 ∧ ∃ p, st.previous_size = some p ∧ n ≤ p) := by
  obtain ⟨ps, is, l, c⟩ := st
  replace h : c ≤ 4 := h
  rcases ps with _ | p
  · rcases is with _ | v <;> simp [tick]
  · by_cases hd : n - p = 0 <;> by_cases hc : 5 ≤ c + 1 <;>
      rcases is with _ | v <;>
      simp [tick, sizeDelta, hd, hc] <;> omega

/-- The idle-timeout summary uses the current size as final size (helper). -/
theorem tick_stopIdle_final (st : MonitorState) (n : Nat) (i : Option Nat) (f : Nat)
    (h : (tick st (Except.ok n)).1 = TickOutcome.stopIdle i f) : f = n := by
  obtain ⟨ps, is, l, c⟩ := st
  rcases ps with _ | p
  · rcases is with _ | v <;> simp [tick] at h
  · by_cases hd : n - p = 0 <;> by_cases hc : 5 ≤ c + 1 <;>
      rcases is with _ | v <;>
      simp [tick, sizeDelta, hd, hc] at h <;> simp_all

/-- An idle-timeout stop needs a successful read, a set previous size, and a
counter already at 4 (helper). -/
theorem tick_stopIdle_inv (st : MonitorState) (r : Except String Nat) (i : Option Nat) (f : Nat)
    (h : (tick st r).1 = TickOutcome.stopIdle i f) :
    (∃ n, r = Except.ok n) ∧ st.previous_size ≠ none ∧ 4 ≤ st.no_change_count := by
  obtain ⟨ps, is, l, c⟩ := st
  rcases r with e | n
  · rcases ps with _ | p <;> simp [tick] at h
  · rcases ps with _ | p
    · rcases is with _ | v <;> simp [tick] at h
    · by_cases hd : n - p = 0 <;> by_cases hc : 5 ≤ c + 1 <;>
        rcases is with _ | v <;> simp [tick, sizeDelta, hd, hc] at h <;>
        exact ⟨⟨n, rfl⟩, by simp, by dsimp only; omega⟩

/-- A continuing successful tick increases the counter by at most one, and
leaves it unchanged on the first successful read (helper). -/
theorem tick_cont_ok_count (st st2 : MonitorState) (n : Nat) (outs : List Status)
    (h : tick st (Except.ok n) = (TickOutcome.cont st2, outs)) :
    st2.no_change_count ≤ st.no_change_count + 1
      ∧ (st.previous_size = none → st2.no_change_count = st.no_change_count) := by
  obtain ⟨ps, is, l, c⟩ := st
  rcases ps with _ | p
  · rcases is with _ | v <;> simp [tick] at h <;>
      (obtain ⟨h1, h2⟩ := h; subst h1; exact ⟨by dsimp only; omega, fun _ => rfl⟩)
  · by_cases hd : n - p = 0 <;> by_cases hc : 5 ≤ c + 1 <;> rcases is with _ | v <;>
      simp [tick, sizeDelta, hd, hc] at h <;>
      (obtain ⟨h1, h2⟩ := h; subst h1; exact ⟨by dsimp only; omega, fun hh => by cases hh⟩)

/-- A failed read can only continue the loop when no read has succeeded yet,
and then changes nothing (helper). -/
theorem tick_cont_error (st st2 : MonitorState) (e : String) (outs : List Status)
    (h : tick st (Except.error e) = (TickOutcome.cont st2, outs)) :
    st2 = st ∧ st.previous_size = none := by
  obtain ⟨ps, is, l, c⟩ := st
  rcases ps with _ | p <;> simp [tick] at h
  obtain ⟨h1, h2⟩ := h; subst h1; exact ⟨rfl, rfl⟩

/-- A set `initial_size` survives any tick unchanged (helper). -/
theorem tick_initial_preserved (st : MonitorState) (r : Except String Nat) (v : Nat)
    (h : st.initial_size = some v) : outcomeInitial (tick st r).1 = some v := by
  obtain ⟨ps, is, l, c⟩ := st
  replace h : is = some v := h
  subst h
  rcases r with e | n
  · rcases ps with _ | p <;> simp [tick, outcomeInitial]
  · rcases ps with _ | p
    · simp [tick, outcomeInitial]
    · by_cases hd : n - p = 0 <;> by_cases hc : 5 ≤ c + 1 <;>
        simp [tick, sizeDelta, hd, hc, outcomeInitial]

/-- The first successful read sets `initial_size` to the read value (helper). -/
theorem tick_initial_first (st : MonitorState) (n : Nat) (h : st.initial_size = none) :
    outcomeInitial (tick st (Except.ok n)).1 = some n := by
  obtain ⟨ps, is, l, c⟩ := st
  replace h : is = none := h
  subst h
  rcases ps with _ | p
  · simp [tick, outcomeInitial]
  · by_cases hd : n - p = 0 <;> by_cases hc : 5 ≤ c + 1 <;>
      simp [tick, sizeDelta, hd, hc, outcomeInitial]

/-- A failed read never sets `initial_size` (helper). -/
theorem tick_initial_error (st : MonitorState) (e : String) (h : st.initial_size = none) :
    outcomeInitial (tick st (Except.error e)).1 = none := by
  obtain ⟨ps, is, l, c⟩ := st
  replace h : is = none := h
  subst h
  rcases ps with _ | p <;> simp [tick, outcomeInitial]

/-- A successful read with `previous_size` unset prints only the initial-size
line and changes nothing but `previous_size`, `initial_size` and
`last_known_size` (helper). -/
theorem tick_first_read (st : MonitorState) (n : Nat) (h : st.previous_size = none) :
    tick st (Except.ok n)
      = (TickOutcome.cont ⟨some n, some (st.initial_size.getD n), n, st.no_change_count⟩,
         [Status.initialLine n]) := by
  obtain ⟨ps, is, l, c⟩ := st
  subst h
  rcases is with _ | v <;> simp [tick]

/-- A rendered idle counter value is at most 5 when the tick starts with the
counter at most 4 (helper). -/
theorem tick_idleLine_le (st : MonitorState) (n s k : Nat) (out : TickOutcome)
    (outs : List Status) (h4 : st.no_change_count ≤ 4)
    (h : tick st (Except.ok n) = (out, outs)) (hm : Status.idleLine s k ∈ outs) : k ≤ 5 := by
  obtain ⟨ps, is, l, c⟩ := st
  replace h4 : c ≤ 4 := h4
  rcases ps with _ | p
  · rcases is with _ | v <;> simp [tick] at h <;> obtain ⟨h1, h2⟩ := h <;> subst h2 <;>
      simp at hm
  · by_cases hd : n - p = 0 <;> by_cases hc : 5 ≤ c + 1 <;> rcases is with _ | v <;>
      simp [tick, sizeDelta, hd, hc] at h <;> obtain ⟨h1, h2⟩ := h <;> subst h2 <;>
      simp at hm <;> omega

/-- The loop-top counter invariant: from a state with counter at most 4, an
interrupted run ends with counter at most 4 (helper). -/
theorem runLoop_count_le (reads : List (Except String Nat)) :
    ∀ st st2, st.no_change_count ≤ 4 → runLoop st reads = LoopResult.interrupted st2 →
      st2.no_change_count ≤ 4 := by
  induction reads with
  | nil =>
      intro st st2 h hr
      simp only [runLoop] at hr
      cases hr
      exact h
  | cons r rs ih =>
      intro st st2 h hr
      simp only [runLoop] at hr
      rcases ht : (tick st r).1 with st3 | ⟨i, f⟩ | ⟨i, f⟩
      · simp only [ht] at hr
        rcases hrl : runLoop st3 rs with st4 | ⟨reason, i2, f2, n2⟩
        · simp only [hrl] at hr
          cases hr
          exact ih st3 st2 (tick_cont_count_le st st3 r (tick st r).2 h (by rw [← ht])) hrl
        · simp only [hrl] at hr
          cases hr
      · simp only [ht] at hr
        cases hr
      · simp only [ht] at hr
        cases hr

/-- A set `initial_size` survives any interrupted run unchanged (helper). -/
theorem runLoop_initial_preserved (reads : List (Except String Nat)) :
    ∀ st st2 v, st.initial_size = some v → runLoop st reads = LoopResult.interrupted st2 →
      st2.initial_size = some v := by
  induction reads with
  | nil =>
      intro st st2 v h hr
      simp only [runLoop] at hr
      cases hr
      exact h
  | cons r rs ih =>
      intro st st2 v h hr
      simp only [runLoop] at hr
      rcases ht : (tick st r).1 with st3 | ⟨i, f⟩ | ⟨i, f⟩
      · simp only [ht] at hr
        rcases hrl : runLoop st3 rs with st4 | ⟨reason, i2, f2, n2⟩
        · simp only [hrl] at hr
          cases hr
          have h3 : st3.initial_size = some v := by
            have hp := tick_initial_preserved st r v h
            rw [ht] at hp
            exact hp
          exact ih st3 st2 v h3 hrl
        · simp only [hrl] at hr
          cases hr
      · simp only [ht] at hr
        cases hr
      · simp only [ht] at hr
        cases hr

/-- Reaching an idle-timeout stop from a state costs at least `5 - counter`
successful reads, and one more when no read has succeeded yet (helper). -/
theorem runLoop_idle_six (reads : List (Except String Nat)) :
    ∀ st i f nt, runLoop st reads = LoopResult.stopped StopReason.idleTimeout i f nt →
      5 ≤ countOk (reads.take nt) + st.no_change_count
        ∧ (st.previous_size = none → 6 ≤ countOk (reads.take nt) + st.no_change_count) := by
  induction reads with
  | nil =>
      intro st i f nt hr
      simp only [runLoop] at hr
      cases hr
  | cons r rs ih =>
      intro st i f nt hr
      simp only [runLoop] at hr
      rcases ht : (tick st r).1 with st3 | ⟨i2, f2⟩ | ⟨i2, f2⟩
      · simp only [ht] at hr
        rcases hrl : runLoop st3 rs with st4 | ⟨reason, i3, f3, n3⟩
        · simp only [hrl] at hr
          cases hr
        · simp only [hrl] at hr
          cases hr
          have hih := ih st3 _ _ n3 hrl
          rcases r with e | n
          · obtain ⟨h1, h2⟩ := tick_cont_error st st3 e (tick st (Except.error e)).2 (by rw [← ht])
            subst h1
            have hc1 := hih.1
            have hc2 := hih.2 h2
            constructor
            · simp [List.take_succ_cons, countOk, List.countP_cons, Except.isOk,
                Except.toBool] at *
              omega
            · intro hp
              simp [List.take_succ_cons, countOk, List.countP_cons, Except.isOk,
                Except.toBool] at *
              omega
          · obtain ⟨hb1, hb2⟩ := tick_cont_ok_count st st3 n (tick st (Except.ok n)).2 (by rw [← ht])
            have hc1 := hih.1
            constructor
            · simp [List.take_succ_cons, countOk, List.countP_cons, Except.isOk,
                Except.toBool] at *
              omega
            · intro hp
              have hb := hb2 hp
              simp [List.take_succ_cons, countOk, List.countP_cons, Except.isOk,
                Except.toBool] at *
              omega
      · simp only [ht] at hr
        cases hr
        obtain ⟨⟨n, hn⟩, hprev, hcnt⟩ := tick_stopIdle_inv st r _ _ ht
        subst hn
        refine ⟨?_, fun hp => absurd hp hprev⟩
        simp [List.take_succ_cons, List.take_zero, countOk, List.countP_cons,
          List.countP_nil, Except.isOk, Except.toBool]
        omega
      · simp only [ht] at hr
        cases hr

/-- C1: with all reads succeeding, the loop stops with reason idle timeout
exactly on the tick at which the counter reaches 5, not before; six equal
reads of 100 stop on the 6th tick with the current size as final size, while
five do not stop; in general a successful tick stops via the idle path iff
the counter was 4 and the delta is zero, and the final size passed to the
summary is the current size. -/
theorem idle_timeout_fifth_zero_delta :
    runLoop initialState (List.replicate 6 (Except.ok 100))
      = LoopResult.stopped StopReason.idleTimeout (some 100) 100 6
    ∧ runLoop initialState (List.replicate 5 (Except.ok 100))
      = LoopResult.interrupted ⟨some 100, some 100, 100, 4⟩
    ∧ (∀ (st : MonitorState) (n : Nat), st.no_change_count ≤ 4 →
        ((∃ i f, (tick st (Except.ok n)).1 = TickOutcome.stopIdle i f) ↔
          (st.no_change_count = 4 ∧ ∃ p, st.previous_size = some p ∧ n ≤ p)))
    ∧ (∀ (st : MonitorState) (n : Nat) (i : Option Nat) (f : Nat),
        (tick st (Except.ok n)).1 = TickOutcome.stopIdle i f → f = n) :=
  ⟨by decide, by decide, tick_stopIdle_iff, tick_stopIdle_final⟩

/-- C1 witness: a state with counter 4 and previous size 100 stops on reading
100 again. -/
theorem idle_timeout_fifth_zero_delta_witness :
    (⟨some 100, some 100, 100, 4⟩ : MonitorState).no_change_count ≤ 4
    ∧ (∃ i f, (tick ⟨some 100, some 100, 100, 4⟩ (Except.ok 100)).1
        = TickOutcome.stopIdle i f) :=
  ⟨by decide,
   (idle_timeout_fifth_zero_delta.2.2.1 ⟨some 100, some 100, 100, 4⟩ 100 (by decide)).mpr
     ⟨rfl, 100, rfl, Nat.le_refl 100⟩⟩

/-- C5: on a failed read, if a prior read succeeded the loop stops at once,
prints the error and passes `last_known_size` to the summary as final size; if
no read has succeeded yet it prints the waiting line and continues with the
state unchanged (no summary, no exit). -/
theorem read_failure_behavior (st : MonitorState) (e : String) :
    (st.previous_size.isSome = true →
      tick st (Except.error e)
        = (TickOutcome.stopInaccessible st.initial_size st.last_known_size,
           [Status.inaccessibleLine e]))
    ∧ (st.previous_size = none →
        tick st (Except.error e) = (TickOutcome.cont st, [Status.waitingLine])) := by
  obtain ⟨ps, is, l, c⟩ := st
  rcases ps with _ | p <;> simp [tick]

/-- C5 witness: a failed read after a successful read of 100 stops with final
size 100. -/
theorem read_failure_behavior_witness :
    ((⟨some 100, some 40, 100, 2⟩ : MonitorState).previous_size.isSome = true)
    ∧ tick ⟨some 100, some 40, 100, 2⟩ (Except.error "gone")
        = (TickOutcome.stopInaccessible (some 40) 100, [Status.inaccessibleLine "gone"]) :=
  ⟨rfl, (read_failure_behavior ⟨some 100, some 40, 100, 2⟩ "gone").1 rfl⟩

/-- C7: `initial_size` is assigned at most once, on the first successful
read: a set value survives every tick and every interrupted run unchanged,
the first successful read sets it to the read value, and a failed read never
sets it. -/
theorem initial_size_set_once :
    (∀ (st : MonitorState) (r : Except String Nat) (v : Nat), st.initial_size = some v →
      outcomeInitial (tick st r).1 = some v)
    ∧ (∀ (st : MonitorState) (n : Nat), st.initial_size = none →
        outcomeInitial (tick st (Except.ok n)).1 = some n)
    ∧ (∀ (st : MonitorState) (e : String), st.initial_size = none →
        outcomeInitial (tick st (Except.error e)).1 = none)
    ∧ (∀ (reads : List (Except String Nat)) (st st2 : MonitorState) (v : Nat),
        st.initial_size = some v → runLoop st reads = LoopResult.interrupted st2 →
        st2.initial_size = some v) :=
  ⟨tick_initial_preserved, tick_initial_first, tick_initial_error,
   fun reads => runLoop_initial_preserved reads⟩

/-- C7 witness: an already-set initial size 5 survives a later read of 9. -/
theorem initial_size_set_once_witness :
    (⟨some 3, some 5, 3, 0⟩ : MonitorState).initial_size = some 5
    ∧ outcomeInitial (tick ⟨some 3, some 5, 3, 0⟩ (Except.ok 9)).1 = some 5 :=
  ⟨rfl, initial_size_set_once.1 ⟨some 3, some 5, 3, 0⟩ (Except.ok 9) 5 rfl⟩

/-- C8: with a wrong argument count the program exits with code 1 and a usage
line on standard error; with the correct count every run — idle timeout, file
inaccessible, or external interrupt — exits with code 0 after printing the
summary block on standard output. -/
theorem exit_code_behavior :
    (∀ (args : List String) (reads : List (Except String Nat)) (elapsed : Nat),
      args.length ≠ 2 →
      mainModel args reads elapsed = ⟨1, [], [usageLine args]⟩)
    ∧ (∀ (args : List String) (reads : List (Except String Nat)) (elapsed : Nat),
        args.length = 2 →
        (mainModel args reads elapsed).exitCode = 0
        ∧ ∃ i f, (mainModel args reads elapsed).stdoutLines =
            headerLines (args.getD 1 "") ++ (runOut initialState reads).map renderStatus
              ++ print_summary i f elapsed) := by
  constructor
  · intro args reads elapsed h
    simp [mainModel, h]
  · intro args reads elapsed h
    simp only [mainModel, h]
    rcases hrl : runLoop initialState reads with st | ⟨reason, i, f, n⟩ <;>
      simp only [hrl] <;> simp
    · exact ⟨st.initial_size, st.last_known_size, rfl⟩
    · exact ⟨i, f, rfl⟩

/-- C8 witness: one argument too few exits 1 with the usage line; a correct
invocation that is interrupted at once exits 0. -/
theorem exit_code_behavior_witness :
    ((["zpd"] : List String).length ≠ 2
      ∧ mainModel ["zpd"] [] 0 = ⟨1, [], [usageLine ["zpd"]]⟩)
    ∧ ((["zpd", "f"] : List String).length = 2
      ∧ (mainModel ["zpd", "f"] [] 0).exitCode = 0) :=
  ⟨⟨by decide, exit_code_behavior.1 ["zpd"] [] 0 (by decide)⟩,
   ⟨by decide, (exit_code_behavior.2 ["zpd", "f"] [] 0 (by decide)).1⟩⟩

/-- C9: the idle counter never exceeds 5: at every loop top it is at most 4
(so at most 5), a continuing tick keeps it at most 4, and any rendered idle
counter value is at most 5. -/
theorem no_change_count_bounded :
    (∀ (reads : List (Except String Nat)) (st : MonitorState),
      runLoop initialState reads = LoopResult.interrupted st → st.no_change_count ≤ 5)
    ∧ (∀ (st st2 : MonitorState) (r : Except String Nat) (outs : List Status),
        st.no_change_count ≤ 4 → tick st r = (TickOutcome.cont st2, outs) →
        st2.no_change_count ≤ 4)
    ∧ (∀ (st : MonitorState) (n s k : Nat) (out : TickOutcome) (outs : List Status),
        st.no_change_count ≤ 4 → tick st (Except.ok n) = (out, outs) →
        Status.idleLine s k ∈ outs → k ≤ 5) :=
  ⟨fun reads st h => by
      have h4 := runLoop_count_le reads initialState st (by decide) h
      omega,
   tick_cont_count_le, tick_idleLine_le⟩

/-- C9 witness: the empty run ends with the counter at most 5. -/
theorem no_change_count_bounded_witness :
    runLoop initialState [] = LoopResult.interrupted initialState
    ∧ initialState.no_change_count ≤ 5 :=
  ⟨rfl, no_change_count_bounded.1 [] initialState rfl⟩

/-- C10: the first successful read leaves `no_change_count` unchanged (no
delta is computed, only the initial-size line is printed), and an idle-timeout
stop from the fresh start consumes at least six successful reads. -/
theorem first_read_frame_six_reads :
    (∀ (st : MonitorState) (n : Nat), st.previous_size = none →
      tick st (Except.ok n)
        = (TickOutcome.cont ⟨some n, some (st.initial_size.getD n), n, st.no_change_count⟩,
           [Status.initialLine n]))
    ∧ (∀ (reads : List (Except String Nat)) (i : Option Nat) (f nt : Nat),
        runLoop initialState reads = LoopResult.stopped StopReason.idleTimeout i f nt →
        6 ≤ countOk (reads.take nt)) := by
  refine ⟨tick_first_read, fun reads i f nt h => ?_⟩
  have h6 : 6 ≤ countOk (reads.take nt) + 0 :=
    (runLoop_idle_six reads initialState i f nt h).2 rfl
  omega

/-- C10 witness: the very first read of 7 from the fresh state keeps the
counter at 0. -/
theorem first_read_frame_six_reads_witness :
    initialState.previous_size = none
    ∧ tick initialState (Except.ok 7)
        = (TickOutcome.cont ⟨some 7, some (initialState.initial_size.getD 7), 7,
            initialState.no_change_count⟩, [Status.initialLine 7]) :=
  ⟨rfl, first_read_frame_six_reads.1 initialState 7 rfl⟩

end Zpd
